import Mathlib

set_option maxHeartbeats 1000000
set_option maxRecDepth 10000

namespace IdeaRepo

/-!
Shallow embedding of the generation-orchestration core of `src/server/index.js`:
the in-memory cache, the fixed-window rate limiter, the file prioritizer,
the per-file generator, and the `/api/generate-project-enhanced` handler.
External generative calls and template text production are abstracted into an
environment (`GenEnv`); all control flow, paths, counts and logs are translated
directly from the source.  Timestamps (`Date.now()`) are explicit `Nat`
parameters in milliseconds.
-/

/-!
JS `Map` semantics as an association list in insertion order:
`set` on an existing key updates the value in place (keeping its position),
otherwise appends at the end; `delete` removes the key's entry;
`keys().next().value` is the first (oldest-inserted) key.
-/

section JsMap

variable {K A : Type} [DecidableEq K]

def mapGet : List (K × A) → K → Option A
  | [], _ => none
  | (k0, v) :: rest, k => if k0 = k then some v else mapGet rest k

def mapSet : List (K × A) → K → A → List (K × A)
  | [], k, v => [(k, v)]
  | (k0, v0) :: rest, k, v =>
      if k0 = k then (k, v) :: rest else (k0, v0) :: mapSet rest k v

def mapDelete : List (K × A) → K → List (K × A)
  | [], _ => []
  | (k0, v) :: rest, k => if k0 = k then rest else (k0, v) :: mapDelete rest k

theorem mapGet_mapSet_self (m : List (K × A)) (k : K) (v : A) :
    mapGet (mapSet m k v) k = some v := by
  induction m with
  | nil => simp [mapSet, mapGet]
  | cons hd tl ih =>
    obtain ⟨k0, v0⟩ := hd
    by_cases h : k0 = k <;> simp [mapSet, mapGet, h, ih]

theorem mapGet_mapSet_ne (m : List (K × A)) {k k' : K} (v : A) (h : k ≠ k') :
    mapGet (mapSet m k v) k' = mapGet m k' := by
  induction m with
  | nil => simp [mapSet, mapGet, h]
  | cons hd tl ih =>
    obtain ⟨k0, v0⟩ := hd
    by_cases h0 : k0 = k
    · subst h0
      simp [mapSet, mapGet, h]
    · simp [mapSet, mapGet, h0, ih]

theorem length_mapSet_le (m : List (K × A)) (k : K) (v : A) :
    (mapSet m k v).length ≤ m.length + 1 := by
  induction m with
  | nil => simp [mapSet]
  | cons hd tl ih =>
    obtain ⟨k0, v0⟩ := hd
    by_cases h : k0 = k <;> simp [mapSet, h] <;> omega

theorem length_mapDelete_le (m : List (K × A)) (k : K) :
    (mapDelete m k).length ≤ m.length := by
  induction m with
  | nil => simp [mapDelete]
  | cons hd tl ih =>
    obtain ⟨k0, v0⟩ := hd
    by_cases h : k0 = k <;> simp [mapDelete, h] <;> omega

theorem mapDelete_cons_self (k : K) (v : A) (tl : List (K × A)) :
    mapDelete ((k, v) :: tl) k = tl := by
  simp [mapDelete]

theorem mapSet_of_get_none (m : List (K × A)) (k : K) (v : A)
    (h : mapGet m k = none) : mapSet m k v = m ++ [(k, v)] := by
  induction m with
  | nil => simp [mapSet]
  | cons hd tl ih =>
    obtain ⟨k0, v0⟩ := hd
    by_cases h0 : k0 = k
    · simp [mapGet, h0] at h
    · simp [mapGet, h0] at h
      simp [mapSet, h0, ih h]

end JsMap

/-!
Cache (`src/server/index.js`, `getFromCache` / `setInCache`).
`get` returns `(result, updated store)`; `set` returns the updated store.
-/

structure CacheEntry (V : Type) where
  data : V
  expiry : Nat
deriving Repr, DecidableEq

abbrev Cache (K V : Type) := List (K × CacheEntry V)

def CACHE_TTL_MS : Nat := 3600 * 1000

def getFromCache {K V : Type} [DecidableEq K]
    (c : Cache K V) (key : K) (now : Nat) : Option V × Cache K V :=
  match mapGet c key with
  | none => (none, c)
  | some item =>
      if now > item.expiry then (none, mapDelete c key) else (some item.data, c)

def setInCache {K V : Type} [DecidableEq K]
    (c : Cache K V) (key : K) (data : V) (now : Nat) : Cache K V :=
  let c' :=
    if c.length > 1000 then
      match c with
      | [] => ([] : Cache K V)
      | (firstKey, _) :: _ => mapDelete c firstKey
    else c
  mapSet c' key ⟨data, now + CACHE_TTL_MS⟩

/-!
Rate limiter (`src/server/index.js`, `apiLimiter`): fixed window per client key.
-/

structure RateRecord where
  count : Nat
  expiry : Nat
deriving Repr, DecidableEq

abbrev RateLimits (K : Type) := List (K × RateRecord)

def LIMIT_WINDOW : Nat := 60 * 60 * 1000
def MAX_REQUESTS : Nat := 50

inductive AdmitResult where
  | admitted
  | rejected
deriving Repr, DecidableEq

def apiLimiter {K : Type} [DecidableEq K]
    (m : RateLimits K) (ip : K) (now : Nat) : AdmitResult × RateLimits K :=
  match mapGet m ip with
  | none => (.admitted, mapSet m ip ⟨1, now + LIMIT_WINDOW⟩)
  | some record =>
      if now > record.expiry then
        (.admitted, mapSet m ip ⟨1, now + LIMIT_WINDOW⟩)
      else if record.count ≥ MAX_REQUESTS then
        (.rejected, m)
      else
        (.admitted, mapSet m ip ⟨record.count + 1, record.expiry⟩)

/-- Run a sequence of admission checks for one client key at given times,
collecting the results and the final limiter state. -/
def runCalls {K : Type} [DecidableEq K]
    (m : RateLimits K) (ip : K) : List Nat → List AdmitResult × RateLimits K
  | [] => ([], m)
  | t :: ts =>
      let (r, m') := apiLimiter m ip t
      let (rs, m'') := runCalls m' ip ts
      (r :: rs, m'')

/-!
Architecture input of the generation pipeline.  Only the fields consumed by
the pipeline's control flow (`prioritizeFiles`, `extractDependencies`, the
handler) are modelled; fields that feed only the text of prompts sent to the
external generative service are absorbed into `GenEnv` below.
-/

structure PageSpec where
  name : String
deriving Repr, DecidableEq

structure ComponentSpec where
  name : String
  isAtomic : Bool
deriving Repr, DecidableEq

structure StoreSpec where
  name : String
deriving Repr, DecidableEq

structure StateManagement where
  approach : String
  globalStores : List StoreSpec
deriving Repr, DecidableEq

structure Authentication where
  provider : String
deriving Repr, DecidableEq

structure CachingPrefs where
  strategy : String
deriving Repr, DecidableEq

structure Performance where
  caching : CachingPrefs
deriving Repr, DecidableEq

structure Architecture where
  projectName : String
  pages : List PageSpec
  components : List ComponentSpec
  stateManagement : StateManagement
  authentication : Authentication
  performance : Performance
deriving Repr, DecidableEq

inductive FileMeta where
  | store (s : StoreSpec)
  | page (p : PageSpec)
  | component (c : ComponentSpec)
deriving Repr, DecidableEq

/-- A planned file (`fileSpec` objects pushed by `prioritizeFiles`). -/
structure FileSpec where
  type : String
  name : String
  priority : Nat
  metadata : Option FileMeta := none
deriving Repr, DecidableEq

structure FileArtifact where
  path : String
  content : String
deriving Repr, DecidableEq

structure LogEntry where
  phase : String
  count : Nat
  status : String
deriving Repr, DecidableEq

structure ProjectBundle where
  name : String
  files : List FileArtifact
  dependencies : List (String × String)
  installCommand : String
  startCommand : String
  generationLog : List LogEntry
deriving Repr, DecidableEq

/-- Result of an HTTP handler: either a JSON bundle or an error status. -/
inductive HandlerResult where
  | ok (bundle : ProjectBundle)
  | err (status : Nat) (message : String)
deriving Repr, DecidableEq

def HandlerResult.filesOf : HandlerResult → List FileArtifact
  | .ok b => b.files
  | .err _ _ => []

def HandlerResult.logOf : HandlerResult → List LogEntry
  | .ok b => b.generationLog
  | .err _ _ => []

def HandlerResult.isBundle : HandlerResult → Bool
  | .ok _ => true
  | .err _ _ => false

/-!
Content-production environment: one field per content strategy of the source.
The `Except`-valued fields are the AI-backed strategies (`await`ed in the
source; an `error` models a rejected promise from the external call), the
plain `String` fields are the pure template generators, which cannot fail.
-/

structure GenEnv where
  generateMainFile : Architecture → Except String String
  generateAppFile : Architecture → Except String String
  generateTypesFile : Architecture → Except String String
  generateAPIClient : Architecture → Except String String
  generateAuthContext : Architecture → Except String String
  generateStore : StoreSpec → Architecture → Except String String
  generatePage : PageSpec → Architecture → Except String String
  generateComponent : ComponentSpec → Architecture → Except String String
  generateHook : String → String
  generateUtils : String → String
  generateStyles : String
  generateReadme : Architecture → String
  generateEnvTemplate : Architecture → String
  generateGitIgnore : String
  generateMigration : Architecture → String
  generatePackageJson : Architecture → String
  generateViteConfig : String
  generateTsConfig : String
  generateTsConfigNode : String
  generateTailwindConfig : String
  generatePostCssConfig : String
  generateIndexHtml : Architecture → String

/-- The `switch (type)` dispatch inside `generateFile`, producing the content
or the error caught by its `try`/`catch`.  A `store`/`page`/`component` spec
without its metadata would make the source strategy throw on an undefined
field, modelled as an error. -/
def runStrategy (env : GenEnv) (fileSpec : FileSpec)
    (architecture : Architecture) : Except String String :=
  match fileSpec.type with
  | "main" => env.generateMainFile architecture
  | "app" => env.generateAppFile architecture
  | "types" => env.generateTypesFile architecture
  | "api-client" => env.generateAPIClient architecture
  | "auth-context" => env.generateAuthContext architecture
  | "store" =>
      match fileSpec.metadata with
      | some (.store s) => env.generateStore s architecture
      | _ => .error "Cannot read properties of undefined"
  | "page" =>
      match fileSpec.metadata with
      | some (.page p) => env.generatePage p architecture
      | _ => .error "Cannot read properties of undefined"
  | "component" =>
      match fileSpec.metadata with
      | some (.component c) => env.generateComponent c architecture
      | _ => .error "Cannot read properties of undefined"
  | "hook" => .ok (env.generateHook fileSpec.name)
  | "utils" => .ok (env.generateUtils fileSpec.name)
  | "styles" => .ok env.generateStyles
  | "readme" => .ok (env.generateReadme architecture)
  | "env" => .ok (env.generateEnvTemplate architecture)
  | "gitignore" => .ok env.generateGitIgnore
  | "migration" => .ok (env.generateMigration architecture)
  | _ => .ok ("// " ++ fileSpec.name ++ " - Generation not implemented")

/-- Content of the artifact returned by `generateFile`'s `catch` branch. -/
def fallbackContent (name msg : String) : String :=
  "// Generation failed for " ++ name ++ "\n// Error: " ++ msg ++
    "\nexport default function Placeholder() { return <div>Placeholder</div> }"

/-- `generateFile(fileSpec, architecture)`: dispatch, catching any strategy
error into fallback content; always returns an artifact at the spec's path. -/
def generateFile (env : GenEnv) (fileSpec : FileSpec)
    (architecture : Architecture) : FileArtifact :=
  match runStrategy env fileSpec architecture with
  | .ok content => { path := fileSpec.name, content := content }
  | .error msg =>
      { path := fileSpec.name, content := fallbackContent fileSpec.name msg }

/-- The four-tier manifest produced by `prioritizeFiles`. -/
structure PrioritizedFiles where
  critical : List FileSpec
  core : List FileSpec
  supporting : List FileSpec
  config : List FileSpec
deriving Repr

def prioritizeFiles (architecture : Architecture) : PrioritizedFiles :=
  let critical :=
    [⟨"main", "src/main.tsx", 1, none⟩,
     ⟨"app", "src/App.tsx", 1, none⟩,
     ⟨"types", "src/types/index.ts", 1, none⟩,
     ⟨"api-client", "src/lib/api.ts", 1, none⟩,
     ⟨"styles", "src/index.css", 1, none⟩]
    ++ (if architecture.authentication.provider ≠ "None" then
          [(⟨"auth-context", "src/contexts/AuthContext.tsx", 1, none⟩ : FileSpec)]
        else [])
    ++ (if architecture.stateManagement.approach ≠ "Context API" then
          architecture.stateManagement.globalStores.map (fun store =>
            (⟨"store", "src/stores/" ++ store.name ++ ".ts", 1,
              some (.store store)⟩ : FileSpec))
        else [])
  let core := architecture.pages.map (fun page =>
    (⟨"page", "src/pages/" ++ page.name ++ ".tsx", 2,
      some (.page page)⟩ : FileSpec))
  let supporting :=
    architecture.components.map (fun component =>
      (⟨"component", "src/components/" ++ component.name ++ ".tsx",
        if component.isAtomic then 3 else 2,
        some (.component component)⟩ : FileSpec))
    ++ [⟨"hook", "src/hooks/useLocalStorage.ts", 3, none⟩,
        ⟨"hook", "src/hooks/useDebounce.ts", 3, none⟩,
        ⟨"utils", "src/lib/utils.ts", 3, none⟩,
        ⟨"utils", "src/lib/constants.ts", 3, none⟩]
  let config :=
    [⟨"readme", "README.md", 4, none⟩,
     ⟨"env", ".env.example", 4, none⟩,
     ⟨"gitignore", ".gitignore", 4, none⟩]
    ++ (if architecture.authentication.provider = "Supabase" then
          [(⟨"migration", "supabase/migrations/001_initial_schema.sql", 4,
             none⟩ : FileSpec)]
        else [])
  ⟨critical, core, supporting, config⟩

/-- `generateStaticFiles`: the ten statically produced artifacts. -/
def generateStaticFiles (env : GenEnv) (architecture : Architecture) :
    List FileArtifact :=
  [⟨"package.json", env.generatePackageJson architecture⟩,
   ⟨"vite.config.ts", env.generateViteConfig⟩,
   ⟨"tsconfig.json", env.generateTsConfig⟩,
   ⟨"tsconfig.node.json", env.generateTsConfigNode⟩,
   ⟨"tailwind.config.js", env.generateTailwindConfig⟩,
   ⟨"postcss.config.js", env.generatePostCssConfig⟩,
   ⟨"index.html", env.generateIndexHtml architecture⟩,
   ⟨".gitignore", env.generateGitIgnore⟩,
   ⟨".env.example", env.generateEnvTemplate architecture⟩,
   ⟨"README.md", env.generateReadme architecture⟩]

/-- `extractDependencies`: fixed rule table keyed on Architecture selections
(JS object literal keeps insertion order). -/
def extractDependencies (architecture : Architecture) :
    List (String × String) :=
  let deps : List (String × String) :=
    [("react", "^18.2.0"), ("react-dom", "^18.2.0"),
     ("react-router-dom", "^6.22.3"), ("lucide-react", "^0.344.0"),
     ("clsx", "^2.1.0"), ("tailwind-merge", "^2.2.1")]
  let deps :=
    if architecture.stateManagement.approach = "Zustand" then
      deps ++ [("zustand", "^4.5.0")]
    else if architecture.stateManagement.approach = "Redux Toolkit" then
      deps ++ [("@reduxjs/toolkit", "^2.0.0"), ("react-redux", "^9.0.0")]
    else if architecture.stateManagement.approach = "Jotai" then
      deps ++ [("jotai", "^2.6.0")]
    else deps
  let deps :=
    if architecture.performance.caching.strategy = "React Query" then
      deps ++ [("@tanstack/react-query", "^5.17.0")]
    else if architecture.performance.caching.strategy = "SWR" then
      deps ++ [("swr", "^2.2.4")]
    else deps
  let deps :=
    if architecture.authentication.provider = "Supabase" then
      deps ++ [("@supabase/supabase-js", "^2.39.7")]
    else if architecture.authentication.provider = "Firebase" then
      deps ++ [("firebase", "^10.7.2")]
    else if architecture.authentication.provider = "Clerk" then
      deps ++ [("@clerk/clerk-react", "^4.30.0")]
    else deps
  deps

/-- `chunkArray(array, size)`.  The JS loop advances its index by `size` per
iteration, so for a positive `size` it performs at most `array.length`
iterations; the fuel argument bounds exactly those iterations. -/
def chunkArrayAux {α : Type} : Nat → List α → Nat → List (List α)
  | 0, _, _ => []
  | _, [], _ => []
  | fuel + 1, l, size => l.take size :: chunkArrayAux fuel (l.drop size) size

def chunkArray {α : Type} (array : List α) (size : Nat) : List (List α) :=
  chunkArrayAux array.length array size

/-- Mutable state threaded through the handler's tier/batch loops. -/
structure OrchState where
  allFiles : List FileArtifact
  generationLog : List LogEntry
  generatedPaths : List String
deriving Repr

/-- One iteration of the inner batch loop of the enhanced handler:
generate the chunk, append the artifacts, log the batch, record the paths. -/
def processChunk (env : GenEnv) (architecture : Architecture) (tier : String)
    (st : OrchState) (ic : Nat × List FileSpec) : OrchState :=
  let chunkResults := ic.2.map (fun fileSpec => generateFile env fileSpec architecture)
  { allFiles := st.allFiles ++ chunkResults
    generationLog := st.generationLog ++
      [⟨tier ++ " batch " ++ toString (ic.1 + 1), chunkResults.length, "complete"⟩]
    generatedPaths := st.generatedPaths ++ chunkResults.map (·.path) }

/-- One iteration of the outer tier loop: skip empty tiers, drop specs whose
path was already produced, then process the remainder in batches of 6. -/
def runTier (env : GenEnv) (architecture : Architecture)
    (st : OrchState) (tf : String × List FileSpec) : OrchState :=
  if tf.2.isEmpty then st
  else if (tf.2.filter (fun file =>
      !(st.generatedPaths.contains file.name))).isEmpty then st
  else
    (chunkArray (tf.2.filter (fun file =>
      !(st.generatedPaths.contains file.name))) 6).enum.foldl
        (processChunk env architecture tf.1) st

/-- Step 1 of the enhanced handler: push the static files, log the
`Static Config` phase, and seed the produced-path set. -/
def initialOrchState (env : GenEnv) (architecture : Architecture) : OrchState :=
  let staticFiles := generateStaticFiles env architecture
  { allFiles := staticFiles
    generationLog := [⟨"Static Config", staticFiles.length, "complete"⟩]
    generatedPaths := staticFiles.map (·.path) }

/-- The tier iteration order of `Object.entries(prioritized)`: JS object
string keys iterate in insertion order. -/
def handlerTiers (architecture : Architecture) : List (String × List FileSpec) :=
  let prioritized := prioritizeFiles architecture
  [("critical", prioritized.critical), ("core", prioritized.core),
   ("supporting", prioritized.supporting), ("config", prioritized.config)]

/-- The `/api/generate-project-enhanced` handler.  `aiAvailable` models
whether the `ai` client was initialised; `body` is the parsed
`architecture` field of the request body. -/
def generateProjectEnhanced (aiAvailable : Bool) (env : GenEnv)
    (body : Option Architecture) : HandlerResult :=
  if !aiAvailable then .err 503 "AI Service Unavailable"
  else
    match body with
    | none => .err 400 "Architecture required"
    | some architecture =>
        let finalState := (handlerTiers architecture).foldl
          (runTier env architecture) (initialOrchState env architecture)
        .ok
          { name := architecture.projectName
            files := finalState.allFiles
            dependencies := extractDependencies architecture
            installCommand := "npm install"
            startCommand := "npm run dev"
            generationLog := finalState.generationLog }

/-- A concrete content environment whose strategies all succeed (stands in
for a reachable state of the external generative service). -/
def trivialEnv : GenEnv where
  generateMainFile := fun _ => .ok "M"
  generateAppFile := fun _ => .ok "A"
  generateTypesFile := fun _ => .ok "T"
  generateAPIClient := fun _ => .ok "C"
  generateAuthContext := fun _ => .ok "X"
  generateStore := fun _ _ => .ok "S"
  generatePage := fun _ _ => .ok "P"
  generateComponent := fun _ _ => .ok "K"
  generateHook := fun _ => "H"
  generateUtils := fun _ => "U"
  generateStyles := "Y"
  generateReadme := fun _ => "R"
  generateEnvTemplate := fun _ => "E"
  generateGitIgnore := "G"
  generateMigration := fun _ => "Mi"
  generatePackageJson := fun _ => "PJ"
  generateViteConfig := "V"
  generateTsConfig := "TS"
  generateTsConfigNode := "TN"
  generateTailwindConfig := "TW"
  generatePostCssConfig := "PC"
  generateIndexHtml := fun _ => "IH"

/-- Like `trivialEnv` but the page strategy's external call rejects. -/
def failingPageEnv : GenEnv :=
  { trivialEnv with generatePage := fun _ _ => .error "AI Failed" }

/-- The concrete scenario of the spec: 2 pages, 3 components (1 atomic),
one global data store with a non-context state-management approach, and
auth provider Supabase (the managed schema-backed backend). -/
def scenarioArch : Architecture where
  projectName := "Demo"
  pages := [⟨"Dashboard"⟩, ⟨"Settings"⟩]
  components := [⟨"Navbar", false⟩, ⟨"Card", true⟩, ⟨"Footer", false⟩]
  stateManagement := ⟨"Zustand", [⟨"userStore"⟩]⟩
  authentication := ⟨"Supabase"⟩
  performance := ⟨⟨"React Query"⟩⟩

/-- An architecture declaring two pages with the same name. -/
def dupArch : Architecture where
  projectName := "Dup"
  pages := [⟨"Home"⟩, ⟨"Home"⟩]
  components := []
  stateManagement := ⟨"Context API", []⟩
  authentication := ⟨"None"⟩
  performance := ⟨⟨"None"⟩⟩

/-- A minimal well-formed architecture. -/
def plainArch : Architecture where
  projectName := "Plain"
  pages := [⟨"Home"⟩]
  components := []
  stateManagement := ⟨"Context API", []⟩
  authentication := ⟨"None"⟩
  performance := ⟨⟨"None"⟩⟩

/-!
Operation sequences over the cache, used to state reachable-state invariants.
-/

inductive CacheOp (K V : Type) where
  | set (k : K) (v : V)
  | get (k : K)

def applyOp {K V : Type} [DecidableEq K]
    (c : Cache K V) : CacheOp K V × Nat → Cache K V
  | (.set k v, t) => setInCache c k v t
  | (.get k, t) => (getFromCache c k t).2

def applyOps {K V : Type} [DecidableEq K]
    (ops : List (CacheOp K V × Nat)) : Cache K V :=
  ops.foldl applyOp []

/-- Insert a list of keys (each with itself as data) at a fixed time. -/
def insertKeys (c : Cache Nat Nat) (ks : List Nat) (t : Nat) : Cache Nat Nat :=
  ks.foldl (fun acc k => setInCache acc k k t) c

section CacheLemmas

variable {K A V : Type} [DecidableEq K]

theorem mapGet_append (a b : List (K × A)) (k : K) :
    mapGet (a ++ b) k = (mapGet a k).or (mapGet b k) := by
  induction a with
  | nil => simp [mapGet]
  | cons hd tl ih =>
    obtain ⟨k0, v0⟩ := hd
    by_cases h : k0 = k <;> simp [mapGet, h, ih]

theorem mapGet_map_keys (ks : List K) (f : K → A) (k : K) :
    mapGet (ks.map fun x => (x, f x)) k =
      if k ∈ ks then some (f k) else none := by
  induction ks with
  | nil => simp [mapGet]
  | cons x xs ih =>
    by_cases h : x = k
    · subst h
      simp [mapGet]
    · have h' : ¬(k = x) := fun hk => h hk.symm
      simp [mapGet, h, h', ih, List.mem_cons]

theorem setInCache_of_le (c : Cache K V) (k : K) (v : V) (t : Nat)
    (h : c.length ≤ 1000) :
    setInCache c k v t = mapSet c k ⟨v, t + CACHE_TTL_MS⟩ := by
  have h' : ¬ c.length > 1000 := by omega
  simp [setInCache, h']

theorem setInCache_evict (k0 : K) (e0 : CacheEntry V) (tl : Cache K V)
    (k : K) (v : V) (t : Nat) (h : ((k0, e0) :: tl).length > 1000) :
    setInCache ((k0, e0) :: tl) k v t = mapSet tl k ⟨v, t + CACHE_TTL_MS⟩ := by
  have h' : 1000 < tl.length + 1 := by simpa using h
  simp [setInCache, h', mapDelete_cons_self]

theorem insertKeys_fresh (ks : List Nat) : ∀ (c : Cache Nat Nat) (t : Nat),
    (∀ k ∈ ks, mapGet c k = none) → ks.Nodup →
    c.length + ks.length ≤ 1001 →
    insertKeys c ks t = c ++ ks.map (fun k => (k, ⟨k, t + CACHE_TTL_MS⟩)) := by
  induction ks with
  | nil => simp [insertKeys]
  | cons k ks ih =>
    intro c t hfresh hnodup hlen
    have hc : c.length ≤ 1000 := by
      simp only [List.length_cons] at hlen
      omega
    have h1 : setInCache c k k t = c ++ [(k, ⟨k, t + CACHE_TTL_MS⟩)] := by
      rw [setInCache_of_le _ _ _ _ hc,
        mapSet_of_get_none _ _ _ (hfresh k (by simp))]
    have hfresh' : ∀ x ∈ ks, mapGet (c ++ [(k, (⟨k, t + CACHE_TTL_MS⟩ : CacheEntry Nat))]) x = none := by
      intro x hx
      have hkx : k ≠ x := by
        rintro rfl
        exact (List.nodup_cons.1 hnodup).1 hx
      rw [mapGet_append, hfresh x (List.mem_cons_of_mem _ hx)]
      simp [mapGet, hkx]
    have hlen' : (c ++ [(k, (⟨k, t + CACHE_TTL_MS⟩ : CacheEntry Nat))]).length + ks.length ≤ 1001 := by
      simp only [List.length_append, List.length_singleton]
      simp only [List.length_cons] at hlen
      omega
    have := ih (c ++ [(k, ⟨k, t + CACHE_TTL_MS⟩)]) t hfresh'
      (List.nodup_cons.1 hnodup).2 hlen'
    simp only [insertKeys, List.foldl_cons] at *
    rw [h1, this, List.append_assoc]
    simp

end CacheLemmas

section CacheSizeLemmas

variable {K V : Type} [DecidableEq K]

theorem length_setInCache_le (c : Cache K V) (k : K) (v : V) (t : Nat)
    (h : c.length ≤ 1001) : (setInCache c k v t).length ≤ 1001 := by
  by_cases hbig : c.length > 1000
  · match c with
    | [] => simp at hbig
    | (k0, e0) :: tl =>
        rw [setInCache_evict _ _ _ _ _ _ hbig]
        have h1 := length_mapSet_le tl k (⟨v, t + CACHE_TTL_MS⟩ : CacheEntry V)
        simp only [List.length_cons] at h
        omega
  · rw [setInCache_of_le _ _ _ _ (by omega)]
    have h1 := length_mapSet_le c k (⟨v, t + CACHE_TTL_MS⟩ : CacheEntry V)
    omega

theorem length_applyOp_le (c : Cache K V) (o : CacheOp K V × Nat)
    (h : c.length ≤ 1001) : (applyOp c o).length ≤ 1001 := by
  obtain ⟨op, t⟩ := o
  cases op with
  | set k v => exact length_setInCache_le c k v t h
  | get k =>
      simp only [applyOp, getFromCache]
      cases hg : mapGet c k with
      | none => simpa using h
      | some item =>
          by_cases he : t > item.expiry
          · have := length_mapDelete_le c k
            simp [he]
            omega
          · simpa [he] using h

theorem length_foldl_applyOp_le (ops : List (CacheOp K V × Nat)) :
    ∀ c : Cache K V, c.length ≤ 1001 →
      (ops.foldl applyOp c).length ≤ 1001 := by
  induction ops with
  | nil => intro c h; simpa using h
  | cons o ops ih =>
      intro c h
      simpa using ih (applyOp c o) (length_applyOp_le c o h)

end CacheSizeLemmas

/-- C4: `set(k,v)` then `get(k)` at the same instant returns `v`; once the
TTL has elapsed past the entry's expiry, `get` misses and deletes the entry;
and `get` never returns a value whose entry's expiry has passed. -/
theorem cache_roundtrip_ttl {K V : Type} [DecidableEq K]
    (c : Cache K V) (k : K) (v : V) (now : Nat) :
    ((getFromCache (setInCache c k v now) k now).1 = some v)
    ∧ (∀ later, later > now + CACHE_TTL_MS →
        (getFromCache (setInCache c k v now) k later).1 = none
        ∧ (getFromCache (setInCache c k v now) k later).2 =
            mapDelete (setInCache c k v now) k)
    ∧ (∀ (c' : Cache K V) (key : K) (t : Nat) (d : V),
        (getFromCache c' key t).1 = some d →
        ∃ e, mapGet c' key = some e ∧ e.data = d ∧ t ≤ e.expiry) := by
  have hget : mapGet (setInCache c k v now) k =
      some (⟨v, now + CACHE_TTL_MS⟩ : CacheEntry V) := by
    simp only [setInCache]
    exact mapGet_mapSet_self _ _ _
  refine ⟨?_, ?_, ?_⟩
  · simp [getFromCache, hget]
  · intro later hlater
    constructor
    · simp [getFromCache, hget, hlater]
    · simp [getFromCache, hget, hlater]
  · intro c' key t d hd
    simp only [getFromCache] at hd
    cases hg : mapGet c' key with
    | none => simp [hg] at hd
    | some item =>
        by_cases he : t > item.expiry
        · simp [hg, he] at hd
        · simp [hg, he] at hd
          exact ⟨item, rfl, hd, by omega⟩

/-- Witness for C4 at concrete inputs. -/
theorem cache_roundtrip_ttl_witness :
    ((getFromCache (setInCache ([] : Cache Nat Nat) 0 7 5) 0 5).1 = some 7)
    ∧ (getFromCache (setInCache ([] : Cache Nat Nat) 0 7 5) 0
        (5 + CACHE_TTL_MS + 1)).1 = none
    ∧ ∃ e, mapGet [((0 : Nat), (⟨(7 : Nat), 10⟩ : CacheEntry Nat))] 0 = some e
        ∧ e.data = 7 ∧ 4 ≤ e.expiry :=
  ⟨(cache_roundtrip_ttl ([] : Cache Nat Nat) 0 7 5).1,
   ((cache_roundtrip_ttl ([] : Cache Nat Nat) 0 7 5).2.1
      (5 + CACHE_TTL_MS + 1) (by omega)).1,
   (cache_roundtrip_ttl ([] : Cache Nat Nat) 0 7 5).2.2
      [(0, ⟨7, 10⟩)] 0 4 7 (by decide)⟩

/-- C3 counterexample: starting from the empty cache, inserting the 1001
distinct keys `0..1000` (all at time 0, no expiry) leaves the first inserted
key `0` still retrievable — the claimed eviction of the first key does not
happen at the 1001st insertion, because the size check `size > 1000` runs
before the insert. -/
theorem cache_1001_first_key_retrievable :
    (getFromCache (insertKeys [] (List.range 1001) 0) 0 0).1 = some 0 := by
  have h := insertKeys_fresh (List.range 1001) [] 0
    (by intro k _; rfl) (List.nodup_range 1001) (by simp)
  rw [h]
  have hmem : (0 : Nat) ∈ List.range 1001 := by
    simp [List.mem_range]
  simp [getFromCache, mapGet_map_keys, hmem, CACHE_TTL_MS]

/-- C3 amended: it is the 1002nd distinct insertion that evicts exactly the
first-inserted key; after inserting keys `0..1001` from empty, key `0` is
unretrievable and every key `1..1001` is still retrievable. -/
theorem cache_1002_evicts_first_key :
    (getFromCache (insertKeys [] (List.range 1002) 0) 0 0).1 = none
    ∧ ∀ k, 1 ≤ k → k ≤ 1001 →
        (getFromCache (insertKeys [] (List.range 1002) 0) k 0).1 = some k := by
  have hsplit : List.range 1002 = List.range 1001 ++ [1001] := List.range_succ 1001
  have h1001 := insertKeys_fresh (List.range 1001) [] 0
    (by intro k _; rfl) (List.nodup_range 1001) (by simp)
  have hhead : List.range 1001 = 0 :: List.range' 1 1000 := by
    rw [List.range_eq_range' 1001]
    exact List.range'_succ 0 1000 1
  have hfinal : insertKeys [] (List.range 1002) 0 =
      (List.range' 1 1000).map
        (fun k => (k, (⟨k, 0 + CACHE_TTL_MS⟩ : CacheEntry Nat)))
      ++ [(1001, ⟨1001, 0 + CACHE_TTL_MS⟩)] := by
    rw [hsplit]
    simp only [insertKeys, List.foldl_append]
    have : (List.range 1001).foldl (fun acc k => setInCache acc k k 0) [] =
        insertKeys [] (List.range 1001) 0 := rfl
    rw [this, h1001]
    simp only [List.nil_append, List.foldl_cons, List.foldl_nil]
    have hlen : ((List.range 1001).map
        (fun k => ((k : Nat), (⟨k, 0 + CACHE_TTL_MS⟩ : CacheEntry Nat)))).length > 1000 := by
      simp
    rw [hhead]
    simp only [List.map_cons]
    rw [setInCache_evict _ _ _ _ _ _ (by simpa using hlen)]
    rw [mapSet_of_get_none]
    rw [mapGet_map_keys]
    have : (1001 : Nat) ∉ List.range' 1 1000 := by
      intro hmem
      have := (List.mem_range'_1).1 hmem
      omega
    simp [this]
  constructor
  · rw [hfinal]
    have h0 : (0 : Nat) ∉ List.range' 1 1000 := by
      intro hmem
      have := (List.mem_range'_1).1 hmem
      omega
    simp [getFromCache, mapGet_append, mapGet_map_keys, h0, mapGet]
  · intro k hk1 hk2
    rw [hfinal]
    by_cases hk : k ≤ 1000
    · have hmem : k ∈ List.range' 1 1000 := by
        rw [List.mem_range'_1]
        omega
      simp [getFromCache, mapGet_append, mapGet_map_keys, hmem, CACHE_TTL_MS]
    · have hk1001 : k = 1001 := by omega
      subst hk1001
      have hnmem : (1001 : Nat) ∉ List.range' 1 1000 := by
        intro hmem
        have := (List.mem_range'_1).1 hmem
        omega
      simp [getFromCache, mapGet_append, mapGet_map_keys, hnmem, mapGet,
        CACHE_TTL_MS]

/-- Witness for the amended C3 at concrete keys. -/
theorem cache_1002_evicts_first_key_witness :
    (getFromCache (insertKeys [] (List.range 1002) 0) 0 0).1 = none
    ∧ (getFromCache (insertKeys [] (List.range 1002) 0) 5 0).1 = some 5
    ∧ (getFromCache (insertKeys [] (List.range 1002) 0) 1001 0).1 = some 1001 :=
  ⟨cache_1002_evicts_first_key.1,
   cache_1002_evicts_first_key.2 5 (by decide) (by decide),
   cache_1002_evicts_first_key.2 1001 (by decide) (by decide)⟩

/-- C10: `setInCache` evicts at most one entry — exactly the oldest-inserted
one, and only when the pre-insertion size strictly exceeds the capacity 1000;
consequently every cache state reachable by `set`/`get` operations from the
empty cache holds at most 1001 entries (capacity + 1). -/
theorem cache_size_bound_and_single_eviction {K V : Type} [DecidableEq K] :
    (∀ ops : List (CacheOp K V × Nat), (applyOps ops).length ≤ 1001)
    ∧ (∀ (c : Cache K V) (k : K) (v : V) (t : Nat), c.length ≤ 1000 →
        setInCache c k v t = mapSet c k ⟨v, t + CACHE_TTL_MS⟩)
    ∧ (∀ (k0 : K) (e0 : CacheEntry V) (tl : Cache K V) (k : K) (v : V)
        (t : Nat), ((k0, e0) :: tl).length > 1000 →
        setInCache ((k0, e0) :: tl) k v t = mapSet tl k ⟨v, t + CACHE_TTL_MS⟩) :=
  ⟨fun ops => length_foldl_applyOp_le ops [] (by simp),
   fun c k v t h => setInCache_of_le c k v t h,
   fun k0 e0 tl k v t h => setInCache_evict k0 e0 tl k v t h⟩

/-- Witness for C10 at concrete inputs. -/
theorem cache_size_bound_and_single_eviction_witness :
    ((applyOps [((CacheOp.set 1 2 : CacheOp Nat Nat), 0), (.get 1, 0)]).length ≤ 1001)
    ∧ (setInCache ([] : Cache Nat Nat) 3 4 0 =
        mapSet ([] : Cache Nat Nat) 3 ⟨4, 0 + CACHE_TTL_MS⟩)
    ∧ (setInCache (insertKeys [] (List.range 1001) 0) 2000 9 0 =
        mapSet (insertKeys [] (List.range 1001) 0).tail 2000 ⟨9, 0 + CACHE_TTL_MS⟩) := by
  refine ⟨(cache_size_bound_and_single_eviction (K := Nat) (V := Nat)).1 _,
    (cache_size_bound_and_single_eviction (K := Nat) (V := Nat)).2.1 [] 3 4 0
      (by simp),
    ?_⟩
  have h := insertKeys_fresh (List.range 1001) [] 0
    (by intro k _; rfl) (List.nodup_range 1001) (by simp)
  have hhead : List.range 1001 = 0 :: List.range' 1 1000 := by
    rw [List.range_eq_range' 1001]
    exact List.range'_succ 0 1000 1
  rw [h, hhead]
  simp only [List.nil_append, List.map_cons, List.tail_cons]
  exact (cache_size_bound_and_single_eviction (K := Nat) (V := Nat)).2.2
    0 ⟨0, 0 + CACHE_TTL_MS⟩ _ 2000 9 0 (by simp)

section RateLimiterLemmas

variable {K : Type} [DecidableEq K]

theorem apiLimiter_admit_step (m : RateLimits K) (ip : K) (t c E : Nat)
    (hget : mapGet m ip = some ⟨c, E⟩) (ht : t ≤ E) (hc : c < MAX_REQUESTS) :
    apiLimiter m ip t = (.admitted, mapSet m ip ⟨c + 1, E⟩) := by
  have h1 : ¬ t > E := by omega
  have h2 : ¬ c ≥ MAX_REQUESTS := by omega
  simp [apiLimiter, hget, h1, h2]

theorem runCalls_admits (ip : K) : ∀ (ts : List Nat) (m : RateLimits K)
    (c E : Nat), mapGet m ip = some ⟨c, E⟩ → (∀ t ∈ ts, t ≤ E) →
    c + ts.length ≤ MAX_REQUESTS →
    (runCalls m ip ts).1 = List.replicate ts.length .admitted
    ∧ mapGet (runCalls m ip ts).2 ip = some ⟨c + ts.length, E⟩ := by
  intro ts
  induction ts with
  | nil =>
      intro m c E hget _ _
      simpa [runCalls] using hget
  | cons t ts ih =>
      intro m c E hget hts hc
      have hstep := apiLimiter_admit_step m ip t c E hget
        (hts t (by simp)) (by simp at hc; omega)
      have hget' : mapGet (mapSet m ip (⟨c + 1, E⟩ : RateRecord)) ip =
          some ⟨c + 1, E⟩ := mapGet_mapSet_self _ _ _
      have hts' : ∀ x ∈ ts, x ≤ E := fun x hx => hts x (List.mem_cons_of_mem _ hx)
      have hc' : (c + 1) + ts.length ≤ MAX_REQUESTS := by
        simp at hc; omega
      have := ih (mapSet m ip ⟨c + 1, E⟩) (c + 1) E hget' hts' hc'
      constructor
      · simp [runCalls, hstep, this.1, List.replicate_succ]
      · have heq : c + (ts.length + 1) = c + 1 + ts.length := by omega
        simp [runCalls, hstep, this.2, heq]

theorem apiLimiter_counts_le (m : RateLimits K) (ip : K) (t : Nat)
    (h : ∀ k r, mapGet m k = some r → r.count ≤ MAX_REQUESTS) :
    ∀ k r, mapGet (apiLimiter m ip t).2 k = some r →
      r.count ≤ MAX_REQUESTS := by
  intro k r hk
  have hfresh : ∀ E', mapGet (mapSet m ip (⟨1, E'⟩ : RateRecord)) k = some r →
      r.count ≤ MAX_REQUESTS := by
    intro E' hk'
    by_cases hip : ip = k
    · subst hip
      rw [mapGet_mapSet_self] at hk'
      cases hk'
      simp [MAX_REQUESTS]
    · rw [mapGet_mapSet_ne _ _ hip] at hk'
      exact h k r hk'
  simp only [apiLimiter] at hk
  cases hget : mapGet m ip with
  | none =>
      rw [hget] at hk
      exact hfresh _ hk
  | some record =>
      rw [hget] at hk
      by_cases hexp : t > record.expiry
      · simp only [hexp, if_pos] at hk
        exact hfresh _ hk
      · simp only [hexp, if_neg, if_false, Bool.false_eq_true] at hk
        by_cases hmax : record.count ≥ MAX_REQUESTS
        · simp only [hmax, if_pos] at hk
          exact h k r hk
        · simp only [hmax, if_neg, if_false, Bool.false_eq_true] at hk
          by_cases hip : ip = k
          · subst hip
            rw [mapGet_mapSet_self] at hk
            cases hk
            simp only [MAX_REQUESTS] at hmax ⊢
            omega
          · rw [mapGet_mapSet_ne _ _ hip] at hk
            exact h k r hk

theorem foldl_limiter_counts_le (reqs : List (K × Nat)) :
    ∀ m : RateLimits K,
      (∀ k r, mapGet m k = some r → r.count ≤ MAX_REQUESTS) →
      ∀ k r, mapGet (reqs.foldl (fun m p => (apiLimiter m p.1 p.2).2) m) k =
          some r → r.count ≤ MAX_REQUESTS := by
  induction reqs with
  | nil => intro m h; simpa using h
  | cons p reqs ih =>
      intro m h
      exact ih _ (apiLimiter_counts_le m p.1 p.2 h)

end RateLimiterLemmas

/-- C5: from an empty limiter, 50 admission checks for one client key within
one fixed window are all admitted (leaving count = 50), the 51st within the
window is rejected and leaves the state unchanged, a check after the window
expiry is admitted and starts a fresh record with count 1, and no reachable
record ever has a count above the maximum of 50. -/
theorem rate_limiter_window {K : Type} [DecidableEq K] (ip : K) (t1 : Nat)
    (ts : List Nat) (hlen : ts.length = 49)
    (hts : ∀ t ∈ ts, t ≤ t1 + LIMIT_WINDOW) :
    (runCalls [] ip (t1 :: ts)).1 = List.replicate 50 .admitted
    ∧ mapGet (runCalls [] ip (t1 :: ts)).2 ip = some ⟨50, t1 + LIMIT_WINDOW⟩
    ∧ (∀ t51, t51 ≤ t1 + LIMIT_WINDOW →
        apiLimiter (runCalls [] ip (t1 :: ts)).2 ip t51 =
          (.rejected, (runCalls [] ip (t1 :: ts)).2))
    ∧ (∀ later, later > t1 + LIMIT_WINDOW →
        (apiLimiter (runCalls [] ip (t1 :: ts)).2 ip later).1 = .admitted
        ∧ mapGet (apiLimiter (runCalls [] ip (t1 :: ts)).2 ip later).2 ip =
            some ⟨1, later + LIMIT_WINDOW⟩)
    ∧ (∀ (reqs : List (K × Nat)) (k : K) (r : RateRecord),
        mapGet (reqs.foldl (fun m p => (apiLimiter m p.1 p.2).2)
          ([] : RateLimits K)) k = some r → r.count ≤ MAX_REQUESTS) := by
  have hfirst : apiLimiter ([] : RateLimits K) ip t1 =
      (.admitted, [(ip, ⟨1, t1 + LIMIT_WINDOW⟩)]) := by
    simp [apiLimiter, mapGet, mapSet]
  have hget1 : mapGet [(ip, (⟨1, t1 + LIMIT_WINDOW⟩ : RateRecord))] ip =
      some ⟨1, t1 + LIMIT_WINDOW⟩ := by
    simp [mapGet]
  have hrest := runCalls_admits ip ts [(ip, ⟨1, t1 + LIMIT_WINDOW⟩)]
    1 (t1 + LIMIT_WINDOW) hget1 hts (by simp [hlen, MAX_REQUESTS])
  have hrun : (runCalls [] ip (t1 :: ts)).1 = List.replicate 50 .admitted
      ∧ mapGet (runCalls [] ip (t1 :: ts)).2 ip =
          some ⟨50, t1 + LIMIT_WINDOW⟩ := by
    constructor
    · simp [runCalls, hfirst, hrest.1, hlen, List.replicate_succ]
    · have h2 := hrest.2
      rw [hlen] at h2
      simp [runCalls, hfirst, h2]
  refine ⟨hrun.1, hrun.2, ?_, ?_, ?_⟩
  · intro t51 h51
    have hn1 : ¬ t51 > t1 + LIMIT_WINDOW := by omega
    have hn2 : (50 : Nat) ≥ MAX_REQUESTS := by simp [MAX_REQUESTS]
    simp [apiLimiter, hrun.2, hn1, hn2]
  · intro later hlater
    constructor
    · simp [apiLimiter, hrun.2, hlater]
    · simp [apiLimiter, hrun.2, hlater, mapGet_mapSet_self]
  · intro reqs k r hk
    exact foldl_limiter_counts_le reqs [] (by simp [mapGet]) k r hk

/-- Witness for C5 at a concrete client key and concrete times. -/
theorem rate_limiter_window_witness :
    (runCalls [] (0 : Nat) (5 :: List.replicate 49 10)).1 =
      List.replicate 50 .admitted
    ∧ apiLimiter (runCalls [] (0 : Nat) (5 :: List.replicate 49 10)).2 0 20 =
        (.rejected, (runCalls [] (0 : Nat) (5 :: List.replicate 49 10)).2)
    ∧ (apiLimiter (runCalls [] (0 : Nat) (5 :: List.replicate 49 10)).2 0
        (5 + LIMIT_WINDOW + 1)).1 = .admitted
    ∧ ∀ r, mapGet ([((3 : Nat), 7), (3, 8)].foldl
        (fun m p => (apiLimiter m p.1 p.2).2) ([] : RateLimits Nat)) 3 =
          some r → r.count ≤ MAX_REQUESTS := by
  have h := rate_limiter_window (0 : Nat) 5 (List.replicate 49 10)
    (by simp) (by intro t ht; simp at ht; simp [ht, LIMIT_WINDOW])
  exact ⟨h.1, h.2.2.1 20 (by simp [LIMIT_WINDOW]),
    (h.2.2.2.1 (5 + LIMIT_WINDOW + 1) (by omega)).1,
    fun r hr => h.2.2.2.2 [(3, 7), (3, 8)] 3 r hr⟩

section OrchestratorLemmas

theorem chunkArrayAux_flatten {α : Type} (size : Nat) (hsize : 1 ≤ size) :
    ∀ (fuel : Nat) (l : List α), l.length ≤ fuel →
      (chunkArrayAux fuel l size).flatten = l := by
  intro fuel
  induction fuel with
  | zero =>
      intro l hl
      have : l = [] := List.length_eq_zero.1 (Nat.le_zero.1 hl)
      subst this
      rfl
  | succ fuel ih =>
      intro l hl
      match l with
      | [] => rfl
      | x :: xs =>
          have hdrop : ((x :: xs).drop size).length ≤ fuel := by
            simp only [List.length_drop, List.length_cons] at *
            omega
          simp only [chunkArrayAux, List.flatten_cons, ih _ hdrop,
            List.take_append_drop]

theorem chunkArray_flatten {α : Type} (l : List α) :
    (chunkArray l 6).flatten = l :=
  chunkArrayAux_flatten 6 (by omega) l.length l (Nat.le_refl _)

theorem chunkArrayAux_mem_length {α : Type} (size : Nat) :
    ∀ (fuel : Nat) (l : List α) (c : List α),
      c ∈ chunkArrayAux fuel l size → c.length ≤ size := by
  intro fuel
  induction fuel with
  | zero => intro l c hc; simp [chunkArrayAux] at hc
  | succ fuel ih =>
      intro l c hc
      match l with
      | [] => simp [chunkArrayAux] at hc
      | x :: xs =>
          simp only [chunkArrayAux, List.mem_cons] at hc
          cases hc with
          | inl h => subst h; exact List.length_take_le _ _
          | inr h => exact ih _ _ h

theorem chunkArray_mem_length {α : Type} (l : List α) (c : List α)
    (hc : c ∈ chunkArray l 6) : c.length ≤ 6 :=
  chunkArrayAux_mem_length 6 l.length l c hc

theorem generateFile_path (env : GenEnv) (fileSpec : FileSpec)
    (architecture : Architecture) :
    (generateFile env fileSpec architecture).path = fileSpec.name := by
  unfold generateFile
  cases runStrategy env fileSpec architecture <;> rfl

theorem map_path_generateFile (env : GenEnv) (architecture : Architecture)
    (c : List FileSpec) :
    (c.map (fun fs => generateFile env fs architecture)).map (·.path) =
      c.map (·.name) := by
  rw [List.map_map]
  exact List.map_congr_left (fun fs _ => generateFile_path env fs architecture)

/-- The inner batch loop appends: the generated artifacts of all chunks, one
log entry per chunk, and the artifact paths. -/
theorem foldl_processChunk (env : GenEnv) (architecture : Architecture)
    (tier : String) :
    ∀ (chunks : List (List FileSpec)) (n : Nat) (st : OrchState),
      (List.enumFrom n chunks).foldl (processChunk env architecture tier) st =
        { allFiles := st.allFiles ++
            chunks.flatten.map (fun fs => generateFile env fs architecture)
          generationLog := st.generationLog ++
            (List.enumFrom n chunks).map (fun ic =>
              (⟨tier ++ " batch " ++ toString (ic.1 + 1), ic.2.length,
                "complete"⟩ : LogEntry))
          generatedPaths := st.generatedPaths ++
            chunks.flatten.map (·.name) } := by
  intro chunks
  induction chunks with
  | nil => intro n st; simp [List.enumFrom]
  | cons c cs ih =>
      intro n st
      have hpaths := map_path_generateFile env architecture c
      simp only [List.enumFrom, List.foldl_cons, ih, processChunk,
        List.flatten_cons, List.map_append, List.map_cons, List.map_nil,
        hpaths, List.append_assoc, List.length_map, List.singleton_append]

/-- `runTier` appends exactly the artifacts, per-batch log entries and paths
of the tier's pending (not-yet-produced) FileSpecs. -/
theorem runTier_eq (env : GenEnv) (architecture : Architecture)
    (tier : String) (files : List FileSpec) (st : OrchState) :
    runTier env architecture st (tier, files) =
      { allFiles := st.allFiles ++
          (files.filter (fun file =>
            !(st.generatedPaths.contains file.name))).map
              (fun fs => generateFile env fs architecture)
        generationLog := st.generationLog ++
          (chunkArray (files.filter (fun file =>
            !(st.generatedPaths.contains file.name))) 6).enum.map (fun ic =>
              (⟨tier ++ " batch " ++ toString (ic.1 + 1), ic.2.length,
                "complete"⟩ : LogEntry))
        generatedPaths := st.generatedPaths ++
          (files.filter (fun file =>
            !(st.generatedPaths.contains file.name))).map (·.name) } := by
  by_cases hfe : files.isEmpty
  · have h0 : files = [] := List.isEmpty_iff.1 hfe
    subst h0
    simp [runTier, chunkArray, chunkArrayAux, List.enum, List.enumFrom]
  · by_cases hpe : (files.filter (fun file =>
        !(st.generatedPaths.contains file.name))).isEmpty
    · have hnil : files.filter (fun file =>
          !(st.generatedPaths.contains file.name)) = [] :=
        List.isEmpty_iff.1 hpe
      unfold runTier
      rw [if_neg hfe, if_pos hpe, hnil]
      simp [chunkArray, chunkArrayAux, List.enum, List.enumFrom]
    · unfold runTier
      rw [if_neg hfe, if_neg hpe]
      simp only [List.enum]
      rw [foldl_processChunk, chunkArray_flatten]

end OrchestratorLemmas

section PathNodupLemmas

theorem nodup_filter_names (gp : List String) (files : List FileSpec)
    (h : (files.map (·.name)).Nodup) :
    ((files.filter (fun file => !(gp.contains file.name))).map
      (·.name)).Nodup :=
  h.sublist ((List.filter_sublist files).map (·.name))

theorem nodup_gp_extend (gp : List String) (files : List FileSpec)
    (hgp : gp.Nodup) (hnames : (files.map (·.name)).Nodup) :
    (gp ++ (files.filter (fun file =>
      !(gp.contains file.name))).map (·.name)).Nodup := by
  rw [List.nodup_append]
  refine ⟨hgp, nodup_filter_names gp files hnames, ?_⟩
  intro a ha hb
  obtain ⟨f, hf, rfl⟩ := List.mem_map.1 hb
  have hnot := (List.mem_filter.1 hf).2
  simp at hnot
  exact hnot ha

/-- The produced-path set always equals the paths of the accumulated
artifacts, and stays duplicate-free when each tier's spec names are
duplicate-free. -/
theorem foldl_runTier_inv (env : GenEnv) (arch : Architecture) :
    ∀ (tiers : List (String × List FileSpec)) (st : OrchState),
      st.allFiles.map (·.path) = st.generatedPaths →
      st.generatedPaths.Nodup →
      (∀ tf ∈ tiers, (tf.2.map (·.name)).Nodup) →
      ((tiers.foldl (runTier env arch) st).allFiles.map (·.path) =
        (tiers.foldl (runTier env arch) st).generatedPaths)
      ∧ (tiers.foldl (runTier env arch) st).generatedPaths.Nodup := by
  intro tiers
  induction tiers with
  | nil => intro st h1 h2 _; exact ⟨h1, h2⟩
  | cons tf tiers ih =>
      intro st h1 h2 h3
      obtain ⟨tier, files⟩ := tf
      simp only [List.foldl_cons]
      refine ih (runTier env arch st (tier, files)) ?_ ?_
        (fun x hx => h3 x (List.mem_cons_of_mem _ hx))
      · rw [runTier_eq]
        simp only [List.map_append, map_path_generateFile, h1]
      · rw [runTier_eq]
        exact nodup_gp_extend _ _ h2 (h3 (tier, files) (by simp))

end PathNodupLemmas

/-- C1 amended: for every architecture whose prioritized manifest has no two
FileSpecs with the same target path inside the same tier (in particular,
pairwise-distinct page, component and store names), the bundle returned by
the enhanced handler has unique `path` values. -/
theorem bundle_paths_nodup (env : GenEnv) (arch : Architecture)
    (h1 : (((prioritizeFiles arch).critical).map (·.name)).Nodup)
    (h2 : (((prioritizeFiles arch).core).map (·.name)).Nodup)
    (h3 : (((prioritizeFiles arch).supporting).map (·.name)).Nodup)
    (h4 : (((prioritizeFiles arch).config).map (·.name)).Nodup) :
    (((generateProjectEnhanced true env (some arch)).filesOf).map
      (·.path)).Nodup := by
  have hok : (generateProjectEnhanced true env (some arch)).filesOf =
      ((handlerTiers arch).foldl (runTier env arch)
        (initialOrchState env arch)).allFiles := rfl
  rw [hok]
  have hinit1 : (initialOrchState env arch).allFiles.map (·.path) =
      (initialOrchState env arch).generatedPaths := rfl
  have hpaths : (initialOrchState env arch).generatedPaths =
      ["package.json", "vite.config.ts", "tsconfig.json",
       "tsconfig.node.json", "tailwind.config.js", "postcss.config.js",
       "index.html", ".gitignore", ".env.example", "README.md"] := rfl
  have hinit2 : (initialOrchState env arch).generatedPaths.Nodup := by
    rw [hpaths]
    decide
  have htiers : ∀ tf ∈ handlerTiers arch, (tf.2.map (·.name)).Nodup := by
    intro tf htf
    simp only [handlerTiers, List.mem_cons, List.not_mem_nil, or_false] at htf
    rcases htf with h | h | h | h <;> subst h
    · exact h1
    · exact h2
    · exact h3
    · exact h4
  have hinv := foldl_runTier_inv env arch (handlerTiers arch)
    (initialOrchState env arch) hinit1 hinit2 htiers
  rw [hinv.1]
  exact hinv.2

/-- C1 counterexample: an architecture with two pages both named `Home`
makes the enhanced handler emit `src/pages/Home.tsx` twice — the in-tier
batch filter is computed once per tier, so name collisions inside a tier
survive deduplication. -/
theorem bundle_dup_paths_on_page_name_collision :
    ¬ (((generateProjectEnhanced true trivialEnv (some dupArch)).filesOf).map
      (·.path)).Nodup := by decide

/-- Witness for the amended C1 at a concrete architecture. -/
theorem bundle_paths_nodup_witness :
    ((((prioritizeFiles scenarioArch).critical).map (·.name)).Nodup
     ∧ (((prioritizeFiles scenarioArch).core).map (·.name)).Nodup
     ∧ (((prioritizeFiles scenarioArch).supporting).map (·.name)).Nodup
     ∧ (((prioritizeFiles scenarioArch).config).map (·.name)).Nodup)
    ∧ (((generateProjectEnhanced true trivialEnv
        (some scenarioArch)).filesOf).map (·.path)).Nodup :=
  ⟨⟨by decide, by decide, by decide, by decide⟩,
   bundle_paths_nodup trivialEnv scenarioArch
     (by decide) (by decide) (by decide) (by decide)⟩

/-- C2 amended: with the AI client not configured, the enhanced handler
rejects immediately with a 503 error response for every request body; it
does not throw, and it returns no bundle. -/
theorem enhanced_unavailable_503 (env : GenEnv) (body : Option Architecture) :
    generateProjectEnhanced false env body = .err 503 "AI Service Unavailable" :=
  rfl

/-- C2 counterexample: with the AI client not configured, the enhanced
handler returns no bundle at all for a concrete architecture (it answers
with the 503 error), contradicting the claimed degradation to a bundle of
non-empty dynamic files. -/
theorem enhanced_unavailable_no_bundle :
    (generateProjectEnhanced false trivialEnv (some plainArch)).isBundle =
      false := rfl

/-- Each tier iteration appends log entries whose phase is tagged with the
tier's name and whose count is at most the batch size 6. -/
theorem log_after_runTier (env : GenEnv) (arch : Architecture) (tier : String)
    (files : List FileSpec) (st : OrchState) :
    ∃ l, (runTier env arch st (tier, files)).generationLog =
        st.generationLog ++ l
      ∧ (∀ e ∈ l, (∃ k : Nat, e.phase = tier ++ " batch " ++ toString k)
          ∧ e.count ≤ 6) := by
  refine ⟨_, congrArg OrchState.generationLog (runTier_eq env arch tier files st), ?_⟩
  intro e he
  obtain ⟨ic, hic, rfl⟩ := List.mem_map.1 he
  refine ⟨⟨ic.1 + 1, rfl⟩, ?_⟩
  have hchunk : ic.2 ∈ chunkArray (files.filter (fun file =>
      !(st.generatedPaths.contains file.name))) 6 :=
    List.snd_mem_of_mem_enumFrom hic
  simpa using chunkArray_mem_length _ _ hchunk

/-- The generation log of an enhanced-handler run decomposes as the static
entry followed by per-tier blocks in tier order, each entry tagged with its
tier and counting at most 6 files. -/
theorem handler_log_decomp (env : GenEnv) (arch : Architecture) :
    ∃ l1 l2 l3 l4 : List LogEntry,
      (generateProjectEnhanced true env (some arch)).logOf =
        (⟨"Static Config", 10, "complete"⟩ : LogEntry) ::
          (l1 ++ l2 ++ l3 ++ l4)
      ∧ (∀ e ∈ l1, (∃ k : Nat, e.phase = "critical batch " ++ toString k)
          ∧ e.count ≤ 6)
      ∧ (∀ e ∈ l2, (∃ k : Nat, e.phase = "core batch " ++ toString k)
          ∧ e.count ≤ 6)
      ∧ (∀ e ∈ l3, (∃ k : Nat, e.phase = "supporting batch " ++ toString k)
          ∧ e.count ≤ 6)
      ∧ (∀ e ∈ l4, (∃ k : Nat, e.phase = "config batch " ++ toString k)
          ∧ e.count ≤ 6) := by
  obtain ⟨l1, h1, p1⟩ := log_after_runTier env arch "critical"
    (prioritizeFiles arch).critical (initialOrchState env arch)
  obtain ⟨l2, h2, p2⟩ := log_after_runTier env arch "core"
    (prioritizeFiles arch).core
    (runTier env arch (initialOrchState env arch)
      ("critical", (prioritizeFiles arch).critical))
  obtain ⟨l3, h3, p3⟩ := log_after_runTier env arch "supporting"
    (prioritizeFiles arch).supporting
    (runTier env arch (runTier env arch (initialOrchState env arch)
      ("critical", (prioritizeFiles arch).critical))
      ("core", (prioritizeFiles arch).core))
  obtain ⟨l4, h4, p4⟩ := log_after_runTier env arch "config"
    (prioritizeFiles arch).config
    (runTier env arch (runTier env arch (runTier env arch
      (initialOrchState env arch)
      ("critical", (prioritizeFiles arch).critical))
      ("core", (prioritizeFiles arch).core))
      ("supporting", (prioritizeFiles arch).supporting))
  refine ⟨l1, l2, l3, l4, ?_, p1, p2, p3, p4⟩
  have hlog : (generateProjectEnhanced true env (some arch)).logOf =
      (runTier env arch (runTier env arch (runTier env arch (runTier env arch
        (initialOrchState env arch)
        ("critical", (prioritizeFiles arch).critical))
        ("core", (prioritizeFiles arch).core))
        ("supporting", (prioritizeFiles arch).supporting))
        ("config", (prioritizeFiles arch).config)).generationLog := rfl
  have hA : (initialOrchState env arch).generationLog =
      [(⟨"Static Config", 10, "complete"⟩ : LogEntry)] := rfl
  rw [hlog, h4, h3, h2, h1, hA]
  simp [List.append_assoc]

/-- C6: the per-tier batch entries of the generation log appear in the fixed
tier order critical, core, supporting, config — the log is the static entry
followed by four consecutive blocks, one per tier in that order. -/
theorem generation_log_tier_order (env : GenEnv) (arch : Architecture) :
    ∃ l1 l2 l3 l4 : List LogEntry,
      (generateProjectEnhanced true env (some arch)).logOf =
        (⟨"Static Config", 10, "complete"⟩ : LogEntry) ::
          (l1 ++ l2 ++ l3 ++ l4)
      ∧ (∀ e ∈ l1, ∃ k : Nat, e.phase = "critical batch " ++ toString k)
      ∧ (∀ e ∈ l2, ∃ k : Nat, e.phase = "core batch " ++ toString k)
      ∧ (∀ e ∈ l3, ∃ k : Nat, e.phase = "supporting batch " ++ toString k)
      ∧ (∀ e ∈ l4, ∃ k : Nat, e.phase = "config batch " ++ toString k) := by
  obtain ⟨l1, l2, l3, l4, heq, p1, p2, p3, p4⟩ := handler_log_decomp env arch
  exact ⟨l1, l2, l3, l4, heq,
    fun e he => (p1 e he).1, fun e he => (p2 e he).1,
    fun e he => (p3 e he).1, fun e he => (p4 e he).1⟩

/-- Witness for C6 at a concrete environment and architecture. -/
theorem generation_log_tier_order_witness :
    ∃ l1 l2 l3 l4 : List LogEntry,
      (generateProjectEnhanced true trivialEnv (some scenarioArch)).logOf =
        (⟨"Static Config", 10, "complete"⟩ : LogEntry) ::
          (l1 ++ l2 ++ l3 ++ l4)
      ∧ (∀ e ∈ l1, ∃ k : Nat, e.phase = "critical batch " ++ toString k)
      ∧ (∀ e ∈ l2, ∃ k : Nat, e.phase = "core batch " ++ toString k)
      ∧ (∀ e ∈ l3, ∃ k : Nat, e.phase = "supporting batch " ++ toString k)
      ∧ (∀ e ∈ l4, ∃ k : Nat, e.phase = "config batch " ++ toString k) :=
  generation_log_tier_order trivialEnv scenarioArch

/-- C7 amended: every generation-log entry other than the initial
`Static Config` entry (which reports the static file count of 10) reports at
most 6 files processed in one batch. -/
theorem batch_log_count_le_six (env : GenEnv) (arch : Architecture) :
    ∀ e ∈ (generateProjectEnhanced true env (some arch)).logOf,
      e.phase ≠ "Static Config" → e.count ≤ 6 := by
  obtain ⟨l1, l2, l3, l4, heq, p1, p2, p3, p4⟩ := handler_log_decomp env arch
  intro e he hne
  rw [heq] at he
  rcases List.mem_cons.1 he with h | h
  · subst h
    simp at hne
  · rcases List.mem_append.1 h with h | h4m
    · rcases List.mem_append.1 h with h | h3m
      · rcases List.mem_append.1 h with h1m | h2m
        · exact (p1 e h1m).2
        · exact (p2 e h2m).2
      · exact (p3 e h3m).2
    · exact (p4 e h4m).2

/-- C7 counterexample: the generation log always contains the
`Static Config` entry reporting 10 files — more than 6 — so the claim that
no log entry reports more than 6 files is false as stated. -/
theorem static_log_entry_exceeds_six :
    ((⟨"Static Config", 10, "complete"⟩ : LogEntry) ∈
      (generateProjectEnhanced true trivialEnv (some plainArch)).logOf)
    ∧ 10 > 6 := by decide

/-- Witness for the amended C7 at a concrete log entry. -/
theorem batch_log_count_le_six_witness :
    ((⟨"critical batch 1", 5, "complete"⟩ : LogEntry) ∈
      (generateProjectEnhanced true trivialEnv (some plainArch)).logOf)
    ∧ (⟨"critical batch 1", 5, "complete"⟩ : LogEntry).count ≤ 6 :=
  ⟨by decide,
   batch_log_count_le_six trivialEnv plainArch
     ⟨"critical batch 1", 5, "complete"⟩ (by decide) (by decide)⟩

/-- C8: the per-file generator is total — it always returns an artifact at
the FileSpec's target path, and when the dispatched strategy fails the
artifact carries the marked fallback content instead of an error. -/
theorem generateFile_never_raises (env : GenEnv) (fileSpec : FileSpec)
    (architecture : Architecture) :
    (generateFile env fileSpec architecture).path = fileSpec.name
    ∧ ∀ msg, runStrategy env fileSpec architecture = .error msg →
        generateFile env fileSpec architecture =
          ⟨fileSpec.name, fallbackContent fileSpec.name msg⟩ := by
  constructor
  · exact generateFile_path env fileSpec architecture
  · intro msg hmsg
    simp [generateFile, hmsg]

/-- Witness for C8: a failing page strategy yields the marked fallback
artifact at the spec's path. -/
theorem generateFile_never_raises_witness :
    (generateFile failingPageEnv
      ⟨"page", "src/pages/Home.tsx", 2, some (.page ⟨"Home"⟩)⟩
      plainArch).path = "src/pages/Home.tsx"
    ∧ generateFile failingPageEnv
        ⟨"page", "src/pages/Home.tsx", 2, some (.page ⟨"Home"⟩)⟩ plainArch =
      ⟨"src/pages/Home.tsx", fallbackContent "src/pages/Home.tsx" "AI Failed"⟩ :=
  ⟨(generateFile_never_raises failingPageEnv
      ⟨"page", "src/pages/Home.tsx", 2, some (.page ⟨"Home"⟩)⟩ plainArch).1,
   (generateFile_never_raises failingPageEnv
      ⟨"page", "src/pages/Home.tsx", 2, some (.page ⟨"Home"⟩)⟩ plainArch).2
     "AI Failed" rfl⟩

/-- C9: the concrete scenario — 2 pages, 3 components (1 atomic), one global
store under a non-context approach, auth provider Supabase — yields 7
critical, 2 core and 7 supporting FileSpecs; after deduplication against the
10 static paths the config tier contributes exactly the migration file; the
bundle holds 10 static + 17 dynamic = 27 files with unique paths. -/
theorem concrete_scenario_tiers :
    (prioritizeFiles scenarioArch).critical.length = 7
    ∧ (prioritizeFiles scenarioArch).core.length = 2
    ∧ (prioritizeFiles scenarioArch).supporting.length = 7
    ∧ ((prioritizeFiles scenarioArch).config.filter (fun f =>
        !(((generateStaticFiles trivialEnv scenarioArch).map
          (·.path)).contains f.name))).map (·.name) =
        ["supabase/migrations/001_initial_schema.sql"]
    ∧ (generateStaticFiles trivialEnv scenarioArch).length = 10
    ∧ (generateProjectEnhanced true trivialEnv
        (some scenarioArch)).filesOf.length = 27
    ∧ (((generateProjectEnhanced true trivialEnv
        (some scenarioArch)).filesOf).map (·.path)).Nodup := by decide

end IdeaRepo
